import Mathlib

/-
Verification of the vidai repository (RunwayML client) against its
natural-language specification.

The definitions below are a shallow embedding of the Go source:
  - pkg/runway/runway.go (JWT-checking variant): Client.New, Client.do,
    Client.doAttempt, addHeaders, the backoff table;
  - the runway package file holding Client.Upload, Client.Generate,
    Error.Temporary, ToS3URL and the task poll loop;
  - the extend workflow (extend.Run and vidai.Client.Extend).
Machine integers are modelled as Nat or Int, time instants as Int
seconds, durations as Nat seconds; network and filesystem effects are
modelled by explicit traces.
-/

namespace Vidai

/- String literals used by the source, bound to names. -/

def tokenExpiredMsg : String := "runway: token expired"

def parseExpirationMsg : String := "runway: couldn't parse expiration"

def statusSucceededStr : String := "SUCCEEDED"

def statusPendingStr : String := "PENDING"

def statusRunningStr : String := "RUNNING"

def statusThrottledStr : String := "THROTTLED"

def noArtifactsMsg : String := "runway: no artifacts returned"

def emptyArtifactURLMsg : String := "runway: empty artifact url"

def noUUIDMsg : String := "runway: couldn't find UUID in asset URL"

def s3Head : String := "https://runway-task-artifacts.s3.amazonaws.com/"

def mp4Suffix : String := ".mp4"

def safetyInputText : String := "SAFETY.INPUT.TEXT"

def internalBadOutputDot : String := "INTERNAL.BAD_OUTPUT."

def emptyStr : String := ""

/-! ## Resilient request executor (pkg/runway/runway.go, JWT variant)

Client.do checks the token expiration, then loops doAttempt with
maxAttempts = 3.  Each doAttempt acquires one rate-limit permit and makes
one network call.  A network timeout error is retried immediately; an
errStatusCode in the retryable set is retried after a wait taken from the
backoff table indexed by attempts-1 capped at the last entry; any other
error returns at once. -/

/-- Outcome of one physical attempt (one doAttempt call), as classified by
Client.do: success, a net.Error timeout, an HTTP non-OK status carried by
errStatusCode, or any other error. -/
inductive Outcome where
  | ok
  | timeout
  | status (code : Nat)
  | netOther
deriving DecidableEq, Repr

/-- Backoff table from runway.go (30s, 1 minute, 2 minutes), in seconds. -/
def backoffTable : List Nat := [30, 60, 120]

/-- Wait (seconds) performed before retry number n (1-based), from
Client.do: idx := attempts - 1; if idx >= len(backoff) then
idx = len(backoff) - 1; wait := backoff[idx]. -/
def backoffDur (n : Nat) : Nat :=
  let idx := n - 1
  let idx := if idx ≥ backoffTable.length then backoffTable.length - 1 else idx
  backoffTable.getD idx 0

/-- Status codes retried with backoff in Client.do: StatusBadGateway 502,
StatusGatewayTimeout 504, StatusTooManyRequests 429,
StatusInternalServerError 500, and vendor codes 520 and 522. -/
def retryableStatus (code : Nat) : Bool :=
  code == 502 || code == 504 || code == 429 || code == 500 ||
    code == 520 || code == 522

/-- Trace and boolean result of the retry loop of Client.do.  Each trace
entry is one physical attempt: its outcome, paired with the backoff wait
(in seconds) performed after it before the next attempt, when such a wait
happened (none for immediate timeout retries, the final attempt, and
non-retried errors). -/
structure RunResult where
  trace : List (Outcome × Option Nat)
  ok : Bool
deriving DecidableEq, Repr

/-- Retry loop of Client.do with the outcome of each physical attempt
scripted by its 0-based index.  The fuel argument equals
maxAttempts - attempts and makes the recursion structural; with the
source values (maxAttempts = 3, attempts = 0) it is never exhausted. -/
def doGo (outcomes : Nat → Outcome) : Nat → Nat → RunResult
  | 0, _ => ⟨[], false⟩
  | fuel + 1, attempts =>
    match outcomes attempts with
    | .ok => ⟨[(.ok, none)], true⟩
    | .timeout =>
      if attempts + 1 ≥ 3 then ⟨[(.timeout, none)], false⟩
      else
        let r := doGo outcomes fuel (attempts + 1)
        ⟨(.timeout, none) :: r.trace, r.ok⟩
    | .status c =>
      if attempts + 1 ≥ 3 then ⟨[(.status c, none)], false⟩
      else if retryableStatus c then
        let r := doGo outcomes fuel (attempts + 1)
        ⟨(.status c, some (backoffDur (attempts + 1))) :: r.trace, r.ok⟩
      else ⟨[(.status c, none)], false⟩
    | .netOther => ⟨[(.netOther, none)], false⟩

/-- Result of Client.do: refused because the token expired, or the retry
loop ran. -/
inductive ExecResult where
  | expired
  | done (r : RunResult)
deriving DecidableEq, Repr

/-- Client.do: if time.Now().After(c.expiration) it returns the
token-expired error at once, before the loop; otherwise the retry loop
runs with maxAttempts = 3 and attempts = 0. -/
def clientDo (now expiration : Int) (outcomes : Nat → Outcome) : ExecResult :=
  if expiration < now then .expired
  else .done (doGo outcomes 3 0)

/-- Rate-limit permits acquired by a Client.do call: doAttempt acquires
exactly one permit per physical attempt (c.ratelimit.Lock), so the count
is the trace length; the expired refusal happens before any attempt. -/
def permitsAcquired : ExecResult → Nat
  | .expired => 0
  | .done r => r.trace.length

/-- Network calls made by a Client.do call: doAttempt performs exactly one
transport call per physical attempt (c.client.Do). -/
def networkCalls : ExecResult → Nat
  | .expired => 0
  | .done r => r.trace.length

/-- Construction check in runway.New: the JWT is parsed unverified, the
numeric exp claim is read (error when absent), and a token whose
expiration is already in the past (expiration.Before(time.Now())) is
refused.  The stored expiration is returned as the client state. -/
def newClient (expClaim : Option Int) (now : Int) : Except String Int :=
  match expClaim with
  | none => .error parseExpirationMsg
  | some exp =>
    if exp < now then .error tokenExpiredMsg
    else .ok exp

/-- Outcome script made of n retryable-status failures followed by
success on every later attempt. -/
def nFailuresThenOk (c : Nat) (n : Nat) : Nat → Outcome :=
  fun i => if i < n then .status c else .ok

/-- Run of Client.do (past the expiration gate) on the script of n
failures followed by success. -/
def retryRun (c : Nat) (n : Nat) : RunResult :=
  doGo (nFailuresThenOk c n) 3 0

/-- Concrete outcome script used as witness input: one 502 then success. -/
def exOutcomes : Nat → Outcome :=
  fun i => if i = 0 then Outcome.status 502 else Outcome.ok

/-- Projection of a literal RunResult, for rewriting. -/
@[simp]
theorem runResult_mk_trace (t : List (Outcome × Option Nat)) (k : Bool) :
    (RunResult.mk t k).trace = t := rfl

/-- Projection of a literal RunResult, for rewriting. -/
@[simp]
theorem runResult_mk_ok (t : List (Outcome × Option Nat)) (k : Bool) :
    (RunResult.mk t k).ok = k := rfl

/-- Every wait recorded in a retry-loop trace follows an attempt that
failed with a retryable status, and the wait before retry number
attempts + i + 1 is read from the backoff table at that retry number. -/
theorem doGo_trace_spec (outcomes : Nat → Outcome) :
    ∀ fuel attempts i o w,
      (doGo outcomes fuel attempts).trace[i]? = some (o, some w) →
      (∃ c, o = Outcome.status c ∧ retryableStatus c = true) ∧
        w = backoffDur (attempts + i + 1) := by
  intro fuel
  induction fuel with
  | zero =>
    intro attempts i o w h
    simp [doGo] at h
  | succ fuel ih =>
    intro attempts i o w h
    cases ho : outcomes attempts with
    | ok =>
      rcases i with _ | i <;> simp [doGo, ho] at h
    | timeout =>
      by_cases hceil : attempts + 1 ≥ 3
      · rcases i with _ | i <;> simp [doGo, ho, hceil] at h
      · rcases i with _ | i
        · simp [doGo, ho, hceil] at h
        · simp only [doGo, ho, if_neg hceil, runResult_mk_trace,
            List.getElem?_cons_succ] at h
          have hspec := ih (attempts + 1) i o w h
          refine ⟨hspec.1, ?_⟩
          rw [hspec.2]
          congr 1
          omega
    | status c =>
      by_cases hceil : attempts + 1 ≥ 3
      · rcases i with _ | i <;> simp [doGo, ho, hceil] at h
      · by_cases hret : retryableStatus c
        · rcases i with _ | i
          · simp [doGo, ho, hceil, hret] at h
            exact ⟨⟨c, h.1.symm, hret⟩, by simpa using h.2.symm⟩
          · simp only [doGo, ho, if_neg hceil, if_pos hret,
              runResult_mk_trace, List.getElem?_cons_succ] at h
            have hspec := ih (attempts + 1) i o w h
            refine ⟨hspec.1, ?_⟩
            rw [hspec.2]
            congr 1
            omega
        · rcases i with _ | i <;> simp [doGo, ho, hceil, hret] at h
    | netOther =>
      rcases i with _ | i <;> simp [doGo, ho] at h

/-- A retry loop run with fuel left always makes at least one attempt. -/
theorem doGo_trace_ne_nil (outcomes : Nat → Outcome) (fuel attempts : Nat)
    (h : 1 ≤ fuel) : (doGo outcomes fuel attempts).trace ≠ [] := by
  match fuel, h with
  | f + 1, _ =>
    cases ho : outcomes attempts with
    | ok => simp [doGo, ho]
    | timeout =>
      by_cases hc : attempts + 1 ≥ 3 <;> simp [doGo, ho, hc]
    | status c =>
      by_cases hc : attempts + 1 ≥ 3 <;>
        by_cases hr : retryableStatus c <;> simp [doGo, ho, hc, hr]
    | netOther => simp [doGo, ho]

/-- A timeout attempt below the attempt ceiling is always followed by a
further attempt (the retry is immediate). -/
theorem doGo_timeout_retries (outcomes : Nat → Outcome) :
    ∀ fuel attempts i, 3 ≤ fuel + attempts →
      (doGo outcomes fuel attempts).trace[i]? = some (.timeout, none) →
      attempts + i + 1 < 3 →
      ((doGo outcomes fuel attempts).trace[i + 1]?).isSome = true := by
  intro fuel
  induction fuel with
  | zero =>
    intro attempts i _ h _
    simp [doGo] at h
  | succ fuel ih =>
    intro attempts i hinv h hlt
    cases ho : outcomes attempts with
    | ok =>
      rcases i with _ | i <;> simp [doGo, ho] at h
    | timeout =>
      by_cases hceil : attempts + 1 ≥ 3
      · exact absurd hceil (by omega)
      · rcases i with _ | i
        · simp only [doGo, ho, if_neg hceil, runResult_mk_trace,
            List.getElem?_cons_succ]
          have hfuel : 1 ≤ fuel := by omega
          have hnn := doGo_trace_ne_nil outcomes fuel (attempts + 1) hfuel
          rcases hnil : (doGo outcomes fuel (attempts + 1)).trace with _ | ⟨e, t⟩
          · exact absurd hnil hnn
          · simp [hnil]
        · simp only [doGo, ho, if_neg hceil, runResult_mk_trace,
            List.getElem?_cons_succ] at h ⊢
          exact ih (attempts + 1) i (by omega) h (by omega)
    | status c =>
      by_cases hceil : attempts + 1 ≥ 3
      · rcases i with _ | i <;> simp [doGo, ho, hceil] at h
      · by_cases hret : retryableStatus c
        · rcases i with _ | i
          · simp [doGo, ho, hceil, hret] at h
          · simp only [doGo, ho, if_neg hceil, if_pos hret,
              runResult_mk_trace, List.getElem?_cons_succ] at h ⊢
            exact ih (attempts + 1) i (by omega) h (by omega)
        · rcases i with _ | i <;> simp [doGo, ho, hceil, hret] at h
    | netOther =>
      rcases i with _ | i <;> simp [doGo, ho] at h

/-- C3: every retry triggered by a status in the retryable-with-backoff
set (502, 504, 429, 500, 520, 522) waits according to the escalating
schedule 30s before the first retry, 60s before the second, and 120s
(capped) before the third and any further retry, while a network timeout
is retried immediately with no wait. -/
theorem backoff_schedule (outcomes : Nat → Outcome) :
    (∀ i o w, (doGo outcomes 3 0).trace[i]? = some (o, some w) →
      (∃ c, o = Outcome.status c ∧ retryableStatus c = true) ∧
        w = backoffDur (i + 1)) ∧
    (∀ (i : Nat) (wo : Option Nat),
      (doGo outcomes 3 0).trace[i]? = some (Outcome.timeout, wo) →
      wo = none) ∧
    (∀ i, (doGo outcomes 3 0).trace[i]? = some (Outcome.timeout, none) →
      i + 1 < 3 → ((doGo outcomes 3 0).trace[i + 1]?).isSome = true) ∧
    backoffDur 1 = 30 ∧ backoffDur 2 = 60 ∧
    (∀ n, 3 ≤ n → backoffDur n = 120) := by
  refine ⟨?_, ?_, ?_, by decide, by decide, ?_⟩
  · intro i o w h
    have := doGo_trace_spec outcomes 3 0 i o w h
    simpa using this
  · intro i wo h
    cases wo with
    | none => rfl
    | some w =>
      rcases (doGo_trace_spec outcomes 3 0 i Outcome.timeout w h).1
        with ⟨c, hc, _⟩
      exact absurd hc (by simp)
  · intro i h hlt
    exact doGo_timeout_retries outcomes 3 0 i (by omega) h (by omega)
  · intro n hn
    match n, hn with
    | m + 3, _ =>
      cases m with
      | zero => decide
      | succ k =>
        have hge : k + 1 + 3 - 1 ≥ backoffTable.length := by
          simp [backoffTable]
        simp [backoffDur, hge, backoffTable]

/-- Witness for backoff_schedule: on the one-502-then-success script the
first trace entry records a 30 second wait after a retryable status, and
a hypothetical fifth retry would be capped at 120 seconds. -/
theorem backoff_schedule_witness :
    retryableStatus 502 = true ∧ 30 = backoffDur (0 + 1) ∧
      backoffDur 5 = 120 := by
  obtain ⟨⟨c, hc, hr⟩, hw⟩ :=
    (backoff_schedule exOutcomes).1 0 (Outcome.status 502) 30 (by decide)
  injection hc with hc
  subst hc
  exact ⟨hr, hw, (backoff_schedule exOutcomes).2.2.2.2.2 5 (by decide)⟩

/-- C1: once the decoded credential expiration has passed, Client.do
fails at once with the token-expired error before any physical attempt —
no rate-limit permit is acquired and zero network calls are made — and
runway.New refuses to construct a client from such a token. -/
theorem expired_credential_refused (now exp : Int)
    (outcomes : Nat → Outcome) (h : exp < now) :
    clientDo now exp outcomes = ExecResult.expired ∧
    permitsAcquired (clientDo now exp outcomes) = 0 ∧
    networkCalls (clientDo now exp outcomes) = 0 ∧
    newClient (some exp) now = Except.error tokenExpiredMsg := by
  simp [clientDo, permitsAcquired, networkCalls, newClient, h]

/-- Witness for expired_credential_refused at now = 100, exp = 99. -/
theorem expired_credential_refused_witness :
    clientDo 100 99 (fun _ => Outcome.ok) = ExecResult.expired ∧
    permitsAcquired (clientDo 100 99 (fun _ => Outcome.ok)) = 0 ∧
    networkCalls (clientDo 100 99 (fun _ => Outcome.ok)) = 0 ∧
    newClient (some 99) 100 = Except.error tokenExpiredMsg :=
  expired_credential_refused 100 99 (fun _ => Outcome.ok) (by decide)

/-- C2: on a script of n consecutive retryable failures followed by
success, Client.do makes exactly min (n + 1) 3 physical attempts,
succeeds iff the success occurs within the 3-attempt ceiling, and after
a third failed attempt returns the last error with no further attempt. -/
theorem retry_accounting (n c : Nat) (hc : retryableStatus c = true) :
    (retryRun c n).trace.length = min (n + 1) 3 ∧
    ((retryRun c n).ok = true ↔ n + 1 ≤ 3) ∧
    (3 ≤ n → (retryRun c n).ok = false ∧
      (retryRun c n).trace.getLast? = some (Outcome.status c, none)) := by
  match n with
  | 0 =>
    refine ⟨?_, ?_, ?_⟩ <;> simp [retryRun, nFailuresThenOk, doGo]
  | 1 =>
    refine ⟨?_, ?_, ?_⟩ <;> simp [retryRun, nFailuresThenOk, doGo, hc]
  | 2 =>
    refine ⟨?_, ?_, ?_⟩ <;> simp [retryRun, nFailuresThenOk, doGo, hc]
  | m + 3 =>
    have h0 : (0 : Nat) < m + 3 := by omega
    have h1 : (1 : Nat) < m + 3 := by omega
    have h2 : (2 : Nat) < m + 3 := by omega
    refine ⟨?_, ?_, ?_⟩ <;>
      simp [retryRun, nFailuresThenOk, doGo, hc, h0, h1, h2,
        List.getLast?] <;> omega

/-- Witness for retry_accounting at n = 5 failures with status 502: three
attempts are made, the run fails, and the last error is the 502. -/
theorem retry_accounting_witness :
    (retryRun 502 5).trace.length = min (5 + 1) 3 ∧
    (retryRun 502 5).ok = false ∧
    (retryRun 502 5).trace.getLast? = some (Outcome.status 502, none) := by
  have h := retry_accounting 5 502 (by decide)
  exact ⟨h.1, (h.2.2 (by decide)).1, (h.2.2 (by decide)).2⟩

/-! ## Task failure classification (Error.Temporary) -/

/-- Leading-match test on character lists. -/
def listStarts : List Char → List Char → Bool
  | _, [] => true
  | [], _ :: _ => false
  | c :: cs, p :: ps => c == p && listStarts cs ps

/-- Go strings.HasPrefix(s, p): s begins with p. -/
def goHasPre (s p : String) : Bool :=
  listStarts s.data p.data

/-- Error.Temporary from the runway package: a switch in source order on
the rejection reason. -/
def temporary (reason : String) : Bool :=
  if reason == safetyInputText then false
  else if goHasPre reason internalBadOutputDot then true
  else if reason == emptyStr then true
  else false

/-- C5: the retryability classification of structured task failures:
reason SAFETY.INPUT.TEXT is non-retryable; a reason with the
INTERNAL.BAD_OUTPUT. head or an entirely empty reason is
retryable-by-caller; every other reason is non-retryable. -/
theorem temporary_classification (r : String) :
    (r = safetyInputText → temporary r = false) ∧
    (goHasPre r internalBadOutputDot = true → temporary r = true) ∧
    (r = emptyStr → temporary r = true) ∧
    (r ≠ safetyInputText →
      goHasPre r internalBadOutputDot = false →
      r ≠ emptyStr → temporary r = false) := by
  refine ⟨?_, ?_, ?_, ?_⟩
  · intro h
    subst h
    decide
  · intro h
    by_cases hs : r = safetyInputText
    · subst hs
      exact absurd h (by decide)
    · simp [temporary, hs, h]
  · intro h
    subst h
    decide
  · intro h1 h2 h3
    simp [temporary, h1, h2, h3]

/-- Example rejection reason for witnesses. -/
def reasonBadOutputEx : String := "INTERNAL.BAD_OUTPUT.QUALITY"

/-- Example rejection reason for witnesses. -/
def reasonOtherEx : String := "SAFETY.OUTPUT.VIDEO"

/-- Witness for temporary_classification on concrete reasons. -/
theorem temporary_classification_witness :
    temporary safetyInputText = false ∧
    temporary reasonBadOutputEx = true ∧
    temporary emptyStr = true ∧
    temporary reasonOtherEx = false :=
  ⟨(temporary_classification safetyInputText).1 rfl,
   (temporary_classification reasonBadOutputEx).2.1 (by decide),
   (temporary_classification emptyStr).2.2.1 rfl,
   (temporary_classification reasonOtherEx).2.2.2 (by decide) (by decide)
     (by decide)⟩

/-! ## UUID extraction and host-URL normalization (ToS3URL) -/

/-- Character constant for the hex class bounds. -/
def a_ : Char := 'a'

/-- Character constant for the hex class bounds. -/
def f_ : Char := 'f'

/-- Character constant for the hex class bounds. -/
def zero_ : Char := '0'

/-- Character constant for the hex class bounds. -/
def nine_ : Char := '9'

/-- Character constant for the dash separator. -/
def dash_ : Char := '-'

/-- Lowercase hexadecimal character class [a-f0-9] of uuidRegex. -/
def isHexChar (c : Char) : Bool :=
  (decide (a_ ≤ c) && decide (c ≤ f_)) ||
    (decide (zero_ ≤ c) && decide (c ≤ nine_))

/-- Consume exactly k hex characters, returning the remainder. -/
def hexRun : Nat → List Char → Option (List Char)
  | 0, cs => some cs
  | _ + 1, [] => none
  | k + 1, c :: cs => if isHexChar c then hexRun k cs else none

/-- Consume a dash then k hex characters, returning the remainder. -/
def dashHexRun (k : Nat) (cs : List Char) : Option (List Char) :=
  match cs with
  | c :: rest => if c = dash_ then hexRun k rest else none
  | [] => none

/-- Does the uuid pattern 8-4-4-4-12 (lowercase hex) match at the head? -/
def uuidAt (cs : List Char) : Bool :=
  (Option.bind (hexRun 8 cs) fun r1 =>
    Option.bind (dashHexRun 4 r1) fun r2 =>
      Option.bind (dashHexRun 4 r2) fun r3 =>
        Option.bind (dashHexRun 4 r3) fun r4 =>
          dashHexRun 12 r4).isSome

/-- Leftmost match of uuidRegex (regexp.FindString): the first position
where the pattern matches; the match itself is 36 characters long. -/
def findUUID : List Char → Option (List Char)
  | [] => none
  | c :: rest =>
    if uuidAt (c :: rest) then some ((c :: rest).take 36)
    else findUUID rest

/-- ToS3URL from the runway package: find the UUID in the URL, error when
absent, else map it into the well-known storage URL template. -/
def toS3URL (u : String) : Except String String :=
  match findUUID u.data with
  | none => Except.error noUUIDMsg
  | some uuid => Except.ok (s3Head ++ String.mk uuid ++ mp4Suffix)

/-! ## Task poller (Client.Generate loop) -/

/-- Error block of a task response (taskError in the source). -/
structure TaskErrorInfo where
  errorMessage : String
  reason : String
  message : String
  moderationCategory : String
deriving DecidableEq, Repr

/-- Output artifact fields the poller reads. -/
structure ArtifactData where
  id : String
  url : String
  previewURLs : List String
deriving DecidableEq, Repr

/-- Task fields the poller reads (taskData in the source). -/
structure TaskData where
  id : String
  status : String
  error : TaskErrorInfo
  artifacts : List ArtifactData
deriving DecidableEq, Repr

/-- Result value of a successful generation (Generation in the source). -/
structure Generation where
  id : String
  url : String
  s3Url : String
  previewURLs : List String
deriving DecidableEq, Repr

/-- Result of the poll loop: a Generation, a plain error message
(fmt.Errorf paths), a structured task failure (the Error value carrying
the whole task data), or the end of the scripted fetch sequence. -/
inductive GenResult where
  | generation (g : Generation)
  | errMsg (msg : String)
  | taskFailure (t : TaskData)
  | scriptEnded
deriving DecidableEq, Repr

/-- Statuses on which the loop keeps polling. -/
def pendingStatus (s : String) : Bool :=
  s == statusPendingStr || s == statusRunningStr || s == statusThrottledStr

/-- Poll loop of Client.Generate, with the successive task states
scripted (head = the submit response, tail = successive re-fetches):
on SUCCEEDED require a first artifact with non-empty URL and a UUID
inside it; on PENDING, RUNNING or THROTTLED wait and re-fetch; on any
other status return the structured Error value. -/
def pollTask : List TaskData → GenResult
  | [] => GenResult.scriptEnded
  | t :: rest =>
    if t.status == statusSucceededStr then
      match t.artifacts with
      | [] => GenResult.errMsg noArtifactsMsg
      | a :: _ =>
        if a.url == emptyStr then GenResult.errMsg emptyArtifactURLMsg
        else
          match toS3URL a.url with
          | Except.error e => GenResult.errMsg e
          | Except.ok s3 =>
            GenResult.generation ⟨a.id, a.url, s3, a.previewURLs⟩
    else if pendingStatus t.status then pollTask rest
    else GenResult.taskFailure t

/-- An ok result of ToS3URL always comes from a found UUID and follows
the storage URL template. -/
theorem toS3URL_ok (u s : String) (h : toS3URL u = Except.ok s) :
    ∃ uuid, findUUID u.data = some uuid ∧
      s = s3Head ++ String.mk uuid ++ mp4Suffix := by
  unfold toS3URL at h
  rcases hf : findUUID u.data with _ | uuid <;> rw [hf] at h
  · exact absurd h (by simp)
  · exact ⟨uuid, rfl, by injection h with h; exact h.symm⟩

/-- ToS3URL fails exactly when no UUID occurs in the URL. -/
theorem toS3URL_err (u : String) (h : findUUID u.data = none) :
    toS3URL u = Except.error noUUIDMsg := by
  unfold toS3URL
  rw [h]

/-- The poll loop ignores a pending head: polling a script that starts
with PENDING, RUNNING or THROTTLED states equals polling the rest. -/
theorem pollTask_skip_pending (pre rest : List TaskData)
    (h : ∀ p ∈ pre, pendingStatus p.status = true) :
    pollTask (pre ++ rest) = pollTask rest := by
  induction pre with
  | nil => rfl
  | cons p pre ih =>
    have hp := h p (List.mem_cons_self p pre)
    have hs : (p.status == statusSucceededStr) = false := by
      by_contra hcon
      rw [Bool.not_eq_false, beq_iff_eq] at hcon
      rw [hcon] at hp
      exact absurd hp (by decide)
    rw [List.cons_append, pollTask]
    simp only [hs, Bool.false_eq_true, if_false, hp, if_true]
    exact ih fun q hq => h q (List.mem_cons_of_mem p hq)

/-- C4: the poller returns a Generation only when a polled state is
SUCCEEDED with a first artifact whose URL is non-empty; a SUCCEEDED
state with no artifacts or an empty first-artifact URL is a permanent
error; and a terminal status other than SUCCEEDED always yields the
structured task failure (carrying the whole task data with its status,
message, reason and moderation category), never a success value. -/
theorem poller_soundness (script : List TaskData) :
    (∀ g, pollTask script = GenResult.generation g →
      ∃ t, t ∈ script ∧ t.status = statusSucceededStr ∧
        ∃ a r2, t.artifacts = a :: r2 ∧ a.url ≠ emptyStr ∧
          g.url = a.url ∧ g.id = a.id ∧ g.previewURLs = a.previewURLs) ∧
    (∀ pre t post, script = pre ++ t :: post →
      (∀ p ∈ pre, pendingStatus p.status = true) →
      t.status = statusSucceededStr →
      (t.artifacts = [] → pollTask script = GenResult.errMsg noArtifactsMsg) ∧
      (∀ a r2, t.artifacts = a :: r2 → a.url = emptyStr →
        pollTask script = GenResult.errMsg emptyArtifactURLMsg)) ∧
    (∀ pre t post, script = pre ++ t :: post →
      (∀ p ∈ pre, pendingStatus p.status = true) →
      pendingStatus t.status = false → t.status ≠ statusSucceededStr →
      pollTask script = GenResult.taskFailure t ∧
        ∀ g, pollTask script ≠ GenResult.generation g) := by
  refine ⟨?_, ?_, ?_⟩
  · induction script with
    | nil =>
      intro g h
      simp [pollTask] at h
    | cons t rest ih =>
      intro g h
      by_cases hs : (t.status == statusSucceededStr) = true
      · rcases hart : t.artifacts with _ | ⟨a, r2⟩
        · rw [pollTask] at h
          simp [hs, hart] at h
        · by_cases hurl : (a.url == emptyStr) = true
          · rw [pollTask] at h
            simp [hs, hart, hurl] at h
          · rcases hs3 : toS3URL a.url with e | s3
            · rw [pollTask] at h
              simp [hs, hart, hurl, hs3] at h
            · rw [pollTask] at h
              simp only [hs, if_true, hart, hurl, Bool.false_eq_true,
                if_false, hs3, GenResult.generation.injEq] at h
              subst h
              exact ⟨t, List.mem_cons_self t rest, by simpa using hs, a, r2,
                hart, by simpa using hurl, rfl, rfl, rfl⟩
      · by_cases hp : pendingStatus t.status = true
        · rw [pollTask] at h
          simp only [hs, Bool.false_eq_true, if_false, hp, if_true] at h
          obtain ⟨u, hu, rest'⟩ := ih g h
          exact ⟨u, List.mem_cons_of_mem t hu, rest'⟩
        · rw [pollTask] at h
          simp [hs, hp] at h
  · intro pre t post hsc hpre hsucc
    subst hsc
    rw [pollTask_skip_pending pre (t :: post) hpre]
    constructor
    · intro hart
      rw [pollTask]
      simp [hsucc, hart]
    · intro a r2 hart hurl
      rw [pollTask]
      simp [hsucc, hart, hurl]
  · intro pre t post hsc hpre hpend hsucc
    subst hsc
    rw [pollTask_skip_pending pre (t :: post) hpre]
    have hs : (t.status == statusSucceededStr) = false := by
      simpa using hsucc
    constructor
    · rw [pollTask]
      simp [hs, hpend]
    · intro g
      rw [pollTask]
      simp [hs, hpend]

/-- Example task states for witnesses. -/
def exUUIDStr : String := "0a1b2c3d-0000-1111-2222-333344445555"

/-- Example task states for witnesses. -/
def exArtifactURL : String :=
  "https://d66rp9rz6m43n.cloudfront.net/0a1b2c3d-0000-1111-2222-333344445555.mp4"

/-- Example task states for witnesses. -/
def exPendingTask : TaskData :=
  ⟨"task1", "PENDING", ⟨emptyStr, emptyStr, emptyStr, emptyStr⟩, []⟩

/-- Example task states for witnesses. -/
def exFailedTask : TaskData :=
  ⟨"task1", "FAILED",
    ⟨"err", "SAFETY.INPUT.TEXT", "bad input", "violence"⟩, []⟩

/-- Example task states for witnesses. -/
def exSucceededTask : TaskData :=
  ⟨"task1", "SUCCEEDED", ⟨emptyStr, emptyStr, emptyStr, emptyStr⟩,
    [⟨"art1", exArtifactURL, ["preview1"]⟩]⟩

/-- Example task with SUCCEEDED status and no artifacts. -/
def exNoArtifactTask : TaskData :=
  ⟨"task1", "SUCCEEDED", ⟨emptyStr, emptyStr, emptyStr, emptyStr⟩, []⟩

/-- Example Generation value. -/
def exGen : Generation :=
  ⟨"art1", exArtifactURL, s3Head ++ exUUIDStr ++ mp4Suffix, ["preview1"]⟩

/-- Witness for poller_soundness: a PENDING state followed by a FAILED
state yields the structured failure and not a Generation, and a
SUCCEEDED state with no artifacts yields the permanent no-artifacts
error. -/
theorem poller_soundness_witness :
    pollTask [exPendingTask, exFailedTask] =
        GenResult.taskFailure exFailedTask ∧
    pollTask [exPendingTask, exFailedTask] ≠ GenResult.generation exGen ∧
    pollTask [exPendingTask, exNoArtifactTask] =
      GenResult.errMsg noArtifactsMsg := by
  have h1 := (poller_soundness [exPendingTask, exFailedTask]).2.2
    [exPendingTask] exFailedTask [] rfl
    (by intro p hp; simp at hp; subst hp; decide) (by decide) (by decide)
  have h2 := ((poller_soundness [exPendingTask, exNoArtifactTask]).2.1
    [exPendingTask] exNoArtifactTask [] rfl
    (by intro p hp; simp at hp; subst hp; decide) rfl).1 rfl
  exact ⟨h1.1, h1.2 exGen, h2⟩

/-- C10: a Generation is returned only when the artifact URL contains a
lowercase 8-4-4-4-12 UUID substring, and its S3URL is exactly the
storage template applied to the first (leftmost) UUID match; a SUCCEEDED
state whose non-empty first artifact URL has no UUID yields an error,
not a Generation. -/
theorem poller_s3url_normalization (script : List TaskData) :
    (∀ g, pollTask script = GenResult.generation g →
      ∃ uuid, findUUID g.url.data = some uuid ∧
        g.s3Url = s3Head ++ String.mk uuid ++ mp4Suffix) ∧
    (∀ pre t post a r2, script = pre ++ t :: post →
      (∀ p ∈ pre, pendingStatus p.status = true) →
      t.status = statusSucceededStr → t.artifacts = a :: r2 →
      a.url ≠ emptyStr → findUUID a.url.data = none →
      pollTask script = GenResult.errMsg noUUIDMsg) := by
  constructor
  · induction script with
    | nil =>
      intro g h
      simp [pollTask] at h
    | cons t rest ih =>
      intro g h
      by_cases hs : (t.status == statusSucceededStr) = true
      · rcases hart : t.artifacts with _ | ⟨a, r2⟩
        · rw [pollTask] at h
          simp [hs, hart] at h
        · by_cases hurl : (a.url == emptyStr) = true
          · rw [pollTask] at h
            simp [hs, hart, hurl] at h
          · rcases hs3 : toS3URL a.url with e | s3
            · rw [pollTask] at h
              simp [hs, hart, hurl, hs3] at h
            · rw [pollTask] at h
              simp only [hs, if_true, hart, hurl, Bool.false_eq_true,
                if_false, hs3, GenResult.generation.injEq] at h
              subst h
              obtain ⟨uuid, hfind, htmpl⟩ := toS3URL_ok a.url s3 hs3
              exact ⟨uuid, hfind, htmpl⟩
      · by_cases hp : pendingStatus t.status = true
        · rw [pollTask] at h
          simp only [hs, Bool.false_eq_true, if_false, hp, if_true] at h
          exact ih g h
        · rw [pollTask] at h
          simp [hs, hp] at h
  · intro pre t post a r2 hsc hpre hsucc hart hurl hfind
    subst hsc
    rw [pollTask_skip_pending pre (t :: post) hpre]
    rw [pollTask]
    simp [hsucc, hart, hurl, toS3URL_err a.url hfind]

/-- Artifact URL with no UUID, for the witness. -/
def exNoUUIDURL : String := "https://host.test/video.mp4"

/-- URL and S3URL of the witness Generation. -/
def pollGenURL : String := exArtifactURL

/-- URL and S3URL of the witness Generation. -/
def pollGenS3 : String := s3Head ++ exUUIDStr ++ mp4Suffix

/-- Example task succeeding with a UUID-free artifact URL. -/
def exNoUUIDTask : TaskData :=
  ⟨"task1", "SUCCEEDED", ⟨emptyStr, emptyStr, emptyStr, emptyStr⟩,
    [⟨"art1", exNoUUIDURL, []⟩]⟩

/-- Witness for poller_s3url_normalization: the successful script yields
a Generation whose S3URL instantiates the storage template at the URL
UUID, and a SUCCEEDED state whose artifact URL lacks a UUID yields the
UUID error. -/
theorem poller_s3url_normalization_witness :
    findUUID pollGenURL.data = some exUUIDStr.data ∧
    pollGenS3 = s3Head ++ String.mk exUUIDStr.data ++ mp4Suffix ∧
    pollTask [exNoUUIDTask] = GenResult.errMsg noUUIDMsg := by
  obtain ⟨uuid, h1, h2⟩ :=
    (poller_s3url_normalization [exSucceededTask]).1 exGen (by decide)
  have he : findUUID pollGenURL.data = some exUUIDStr.data := by decide
  have hu : uuid = exUUIDStr.data := by
    have h1x : findUUID pollGenURL.data = some uuid := h1
    rw [h1x] at he
    exact Option.some_inj.mp he
  subst hu
  refine ⟨h1, h2, ?_⟩
  exact (poller_s3url_normalization [exNoUUIDTask]).2
    [] exNoUUIDTask [] ⟨"art1", exNoUUIDURL, []⟩ [] rfl
    (by intro p hp; simp at hp) rfl rfl (by decide) (by decide)

/-! ## Upload body serialization and headers (Client.Upload, doAttempt,
addHeaders) -/

/-- String constant used by the serialization model. -/
def dotStr : String := "."

/-- String constant used by the serialization model. -/
def jpgStr : String := "jpg"

/-- String constant used by the serialization model. -/
def jpegStr : String := "jpeg"

/-- String constant used by the serialization model. -/
def imageSlash : String := "image/"

/-- String constant used by the serialization model. -/
def applicationJSON : String := "application/json"

/-- String constant used by the serialization model. -/
def httpStr : String := "http"

/-- Character constant for the dot. -/
def dotChar : Char := '.'

/-- Suffix of the character list starting at its last dot, if any. -/
def extAux : List Char → Option (List Char)
  | [] => none
  | c :: rest =>
    match extAux rest with
    | some e => some e
    | none => if c == dotChar then some (c :: rest) else none

/-- Go filepath.Ext for a bare file name (no separators): the suffix
beginning at the final dot, empty when there is no dot. -/
def filepathExt (name : String) : String :=
  match extAux name.data with
  | some e => String.mk e
  | none => emptyStr

/-- Go strings.TrimPrefix(s, p): s without the leading p, or s unchanged
when p does not lead it. -/
def goTrimLead (s p : String) : String :=
  if goHasPre s p then String.mk (s.data.drop p.data.length) else s

/-- Extension stored into uploadFile by Client.Upload, with the argument
order of the source: strings.TrimPrefix(".", filepath.Ext(name)). -/
def uploadFileExtension (name : String) : String :=
  goTrimLead dotStr (filepathExt name)

/-- Content type computed by doAttempt for an uploadFile payload: the
stored extension with jpg normalized to jpeg, under image/. -/
def uploadContentType (name : String) : String :=
  let ext := uploadFileExtension name
  let ext := if ext == jpgStr then jpegStr else ext
  imageSlash ++ ext

/-- Request payload kinds distinguished by doAttempt: an uploadFile (with
source file name and byte count), any other non-nil body (JSON-encoded),
or no body. -/
inductive Payload where
  | file (name : String) (dataLen : Nat)
  | jsonBody (len : Nat)
  | noBody
deriving DecidableEq, Repr

/-- Length of the serialized request body. -/
def payloadLen : Payload → Nat
  | .file _ n => n
  | .jsonBody n => n
  | .noBody => 0

/-- Whether addHeaders sets the authorization header: the uploadLen > 0
case and the absolute-URL default case set none; only relative-path
requests carry the bearer credential. -/
def authHeaderSet (uploadLen : Nat) (path : String) : Bool :=
  if uploadLen > 0 then false
  else if !(goHasPre path httpStr) then true
  else false

/-- Header-relevant outcome of one doAttempt request assembly. -/
structure RequestMeta where
  contentType : String
  hasAuth : Bool
  jsonEncoded : Bool
deriving DecidableEq, Repr

/-- Request assembly of doAttempt: content type from the payload kind,
uploadLen set only for absolute URLs, headers via addHeaders. -/
def doAttemptMeta (path : String) (p : Payload) : RequestMeta :=
  let contentType :=
    match p with
    | .file name _ => uploadContentType name
    | _ => applicationJSON
  let uploadLen := if goHasPre path httpStr then payloadLen p else 0
  { contentType := contentType
    hasAuth := authHeaderSet uploadLen path
    jsonEncoded :=
      match p with
      | .jsonBody _ => true
      | _ => false }

/-- Example jpg file name. -/
def photoJpg : String := "photo.jpg"

/-- Content type the source actually produces for a jpg upload. -/
def imageDotStr : String := "image/."

/-- Content type the spec expects for a jpg upload. -/
def imageJpegStr : String := "image/jpeg"

/-- Example absolute upload URL. -/
def exUploadURL : String := "https://uploads.example.test/slot1"

/-- Example relative API path. -/
def tasksPathStr : String := "tasks"

/-- C6 evaluation at the failing input: for a jpg upload the source
computes the extension as a bare dot — strings.TrimPrefix is called with
its arguments swapped, so TrimPrefix(".", ".jpg") returns "." — and
sends content-type image/. instead of image/jpeg (the jpg-to-jpeg
normalization never fires).  The header halves of the claim do hold: the
binary PUT carries no authorization header while a JSON-encoded request
to a relative path carries the bearer credential. -/
theorem upload_jpg_content_type_eval :
    filepathExt photoJpg = ".jpg" ∧
    uploadFileExtension photoJpg = dotStr ∧
    uploadContentType photoJpg = imageDotStr ∧
    imageDotStr ≠ imageJpegStr ∧
    (doAttemptMeta exUploadURL (Payload.file photoJpg 3)).hasAuth = false ∧
    (doAttemptMeta tasksPathStr (Payload.jsonBody 10)).hasAuth = true ∧
    (doAttemptMeta tasksPathStr (Payload.jsonBody 10)).jsonEncoded
      = true ∧
    (doAttemptMeta tasksPathStr (Payload.jsonBody 10)).contentType
      = applicationJSON := by
  decide

/-! ## Task name construction (Client.Generate) -/

/-- String constant used by the name model. -/
def gen2Head : String := "Gen-2 "

/-- String constant used by the name model. -/
def gen3Head : String := "Gen-3 Alpha "

/-- String constant used by the name model. -/
def commaSep : String := ", "

/-- Go v[:20] truncation applied when len(v) > 20 (byte counts coincide
with character counts on the ASCII inputs considered here). -/
def truncate20 (s : String) : String :=
  if s.length > 20 then String.mk (s.data.take 20) else s

/-- Task name for model gen2 in Client.Generate, in source order: the
base name already interpolates the whole prompt
(Sprintf with the seed and the prompt), then a truncated prompt and a
truncated asset name are appended when non-empty. -/
def gen2TaskName (seed : Nat) (prompt assetName : String) : String :=
  let name := gen2Head ++ toString seed ++ commaSep ++ prompt
  let name :=
    if prompt.length > 0 then name ++ commaSep ++ truncate20 prompt
    else name
  if assetName.length > 0 then name ++ commaSep ++ truncate20 assetName
  else name

/-- Task name for model gen3 in Client.Generate: the base name holds only
the seed, then a truncated prompt and a truncated asset name are
appended when non-empty. -/
def gen3TaskName (seed : Nat) (prompt assetName : String) : String :=
  let name := gen3Head ++ toString seed
  let name :=
    if prompt.length > 0 then name ++ commaSep ++ truncate20 prompt
    else name
  if assetName.length > 0 then name ++ commaSep ++ truncate20 assetName
  else name

/-- A 21-character prompt. -/
def prompt21 : String := "aaaaaaaaaaaaaaaaaaaaa"

/-- C7 evaluation at the failing input: with a 21-character prompt the
gen2 task name contains the whole prompt (21 characters at offset 9)
plus its 20-character truncation — 41 characters contributed by the
prompt, where the claim allows at most 20; a name honouring the claim
would measure at most 51 characters here, the actual name measures 52.
The gen3 branch by contrast contributes only the 20-character
truncation. -/
theorem gen2_name_full_prompt_eval :
    prompt21.length = 21 ∧
    gen2TaskName 0 prompt21 emptyStr =
      gen2Head ++ toString 0 ++ commaSep ++ prompt21 ++ commaSep ++
        truncate20 prompt21 ∧
    (gen2TaskName 0 prompt21 emptyStr).length = 52 ∧
    listStarts ((gen2TaskName 0 prompt21 emptyStr).data.drop 9)
      prompt21.data = true ∧
    (gen3TaskName 0 prompt21 emptyStr).length = 35 ∧
    listStarts ((gen3TaskName 0 prompt21 emptyStr).data.drop 15)
      prompt21.data = false := by
  decide

/-! ## Extend-existing-video workflow (extend.Run and vidai Client.Extend)

Both versions copy the input to a temp clip, loop n times (extract last
frame, upload, generate, remove the frame image, download the next
clip), then — when an output path was requested — write the manifest
list file, run the concatenating splice, remove the list file, and
finally remove the temp clips.  The models below cover runs whose loop
steps all succeed; the manifest write, the splice, and the best-effort
removals are environment knobs.  Removal failures are only logged in the
source (os.Remove result feeds log.Println), which the models reflect by
recording removal attempts and ignoring removeOk. -/

/-- String constant used by the workflow model. -/
def tempDirStr : String := "/tmp/"

/-- String constant used by the workflow model. -/
def dashStr : String := "-"

/-- String constant used by the workflow model. -/
def jpgDotExt : String := ".jpg"

/-- String constant used by the workflow model. -/
def listFileSuffix : String := "-list.txt"

/-- String constant used by the workflow model. -/
def errWriteListMsg : String := "vidai: couldn't create list file"

/-- String constant used by the workflow model. -/
def errCombineMsg : String := "vidai: couldn't combine videos"

/-- Temp clip path base-i.mp4 under the temp dir. -/
def vidPath (base : String) (i : Nat) : String :=
  tempDirStr ++ base ++ dashStr ++ toString i ++ mp4Suffix

/-- Temp frame-image path base-i.jpg under the temp dir. -/
def imgPath (base : String) (i : Nat) : String :=
  tempDirStr ++ base ++ dashStr ++ toString i ++ jpgDotExt

/-- Manifest list file path base-list.txt under the temp dir. -/
def listPath (base : String) : String :=
  tempDirStr ++ base ++ listFileSuffix

/-- Environment of one extend run: derived base name, iteration count,
the URL each successful generation returns, requested output path
(empty = none), whether the manifest write and the splice succeed, and
the outcome of each best-effort removal. -/
structure ExtendEnv where
  base : String
  n : Nat
  genURL : Nat → String
  output : String
  writeListOk : Bool
  spliceOk : Bool
  removeOk : String → Bool

/-- Observable trace of one extend run: temp clips created, generation
URLs accumulated in the returned urls slice, files os.Remove was called
on (in order), whether the manifest was written, and the error result. -/
structure ExtendTrace where
  videos : List String
  urls : List String
  removals : List String
  listWritten : Bool
  err : Option String
deriving DecidableEq, Repr

/-- Loop of extend.Run: iteration i appends the downloaded clip
base-(i+1).mp4 to videos, appends gen.URL to urls, and removes the
frame image base-i.jpg. -/
def extendIter (base : String) (genURL : Nat → String) :
    Nat → Nat → List String × List String × List String →
    List String × List String × List String
  | 0, _, acc => acc
  | k + 1, i, (videos, urls, removals) =>
    extendIter base genURL k (i + 1)
      (videos ++ [vidPath base (i + 1)], urls ++ [genURL i],
        removals ++ [imgPath base i])

/-- Loop of vidai Client.Extend: identical to the extend.Run loop except
that the urls slice is declared and returned but never appended to. -/
def vidaiExtendIter (base : String) (genURL : Nat → String) :
    Nat → Nat → List String × List String × List String →
    List String × List String × List String
  | 0, _, acc => acc
  | k + 1, i, (videos, urls, removals) =>
    vidaiExtendIter base genURL k (i + 1)
      (videos ++ [vidPath base (i + 1)], urls,
        removals ++ [imgPath base i])

/-- Post-loop control flow shared by extend.Run and vidai Client.Extend:
when an output was requested, a failed manifest write or a failed splice
returns that error at once — before the list-file removal and the video
removals; only after a successful splice are the list file and then the
videos removed.  With no output requested the videos are removed
directly. -/
def extendFinish (base output : String) (writeListOk spliceOk : Bool)
    (videos urls removals : List String) : ExtendTrace :=
  if output ≠ emptyStr then
    if writeListOk = false then
      ⟨videos, urls, removals, false, some errWriteListMsg⟩
    else if spliceOk = false then
      ⟨videos, urls, removals, true, some errCombineMsg⟩
    else
      ⟨videos, urls, removals ++ [listPath base] ++ videos, true, none⟩
  else
    ⟨videos, urls, removals ++ videos, true, none⟩

/-- extend.Run on a run whose loop steps all succeed. -/
def runExtend (env : ExtendEnv) : ExtendTrace :=
  let res := extendIter env.base env.genURL env.n 0
    ([vidPath env.base 0], [], [])
  extendFinish env.base env.output env.writeListOk env.spliceOk
    res.1 res.2.1 res.2.2

/-- vidai Client.Extend on a run whose loop steps all succeed. -/
def vidaiExtend (env : ExtendEnv) : ExtendTrace :=
  let res := vidaiExtendIter env.base env.genURL env.n 0
    ([vidPath env.base 0], [], [])
  extendFinish env.base env.output env.writeListOk env.spliceOk
    res.1 res.2.1 res.2.2

/-- Example base name for extend runs. -/
def carBase : String := "car"

/-- Example requested output path. -/
def outMp4 : String := "out.mp4"

/-- Example per-iteration generation URL. -/
def demoURL (i : Nat) : String := "https://gen.example.test/" ++ toString i

/-- Environment with n = 1, an output path, and a failing splice. -/
def c8FailEnv : ExtendEnv :=
  ⟨carBase, 1, demoURL, outMp4, true, false, fun _ => true⟩

/-- Environment with n = 2, an output path, and a successful splice. -/
def c8OkEnv : ExtendEnv :=
  ⟨carBase, 2, demoURL, outMp4, true, true, fun _ => true⟩

/-- Environment with n = 2 and no output path. -/
def c9Env : ExtendEnv :=
  ⟨carBase, 2, demoURL, emptyStr, true, true, fun _ => true⟩

/-- C8 counterexample: when the splice fails, both extend.Run and vidai
Client.Extend return the combine error before any clip or manifest
removal — the manifest was written and neither it nor any temp clip is
removed, refuting removal regardless of splice success or failure. -/
theorem splice_failure_skips_cleanup_cex :
    (runExtend c8FailEnv).err = some errCombineMsg ∧
    (runExtend c8FailEnv).listWritten = true ∧
    (runExtend c8FailEnv).videos = [vidPath carBase 0, vidPath carBase 1] ∧
    vidPath carBase 0 ∉ (runExtend c8FailEnv).removals ∧
    vidPath carBase 1 ∉ (runExtend c8FailEnv).removals ∧
    listPath carBase ∉ (runExtend c8FailEnv).removals ∧
    (vidaiExtend c8FailEnv).err = some errCombineMsg ∧
    vidPath carBase 0 ∉ (vidaiExtend c8FailEnv).removals ∧
    listPath carBase ∉ (vidaiExtend c8FailEnv).removals := by
  decide

/-- C8 amended: when the manifest write and the splice succeed — or no
output path was requested — every intermediate clip and (when created)
the manifest are removed at the end, and removal outcomes never change
the trace or the result (removal failures are only logged). -/
theorem cleanup_on_successful_splice (env : ExtendEnv)
    (h : env.output = emptyStr ∨
      (env.writeListOk = true ∧ env.spliceOk = true)) :
    (runExtend env).err = none ∧
    (∀ v ∈ (runExtend env).videos, v ∈ (runExtend env).removals) ∧
    (env.output ≠ emptyStr →
      listPath env.base ∈ (runExtend env).removals) ∧
    (∀ f, runExtend { env with removeOk := f } = runExtend env) ∧
    (vidaiExtend env).err = none ∧
    (∀ v ∈ (vidaiExtend env).videos, v ∈ (vidaiExtend env).removals) := by
  by_cases ho : env.output = emptyStr
  · refine ⟨?_, ?_, ?_, ?_, ?_, ?_⟩ <;>
      simp [runExtend, vidaiExtend, extendFinish, ho] <;>
      intro v hv <;> simp [List.mem_append, hv]
  · rcases h with h | ⟨hw, hs⟩
    · exact absurd h ho
    · refine ⟨?_, ?_, ?_, ?_, ?_, ?_⟩ <;>
        simp [runExtend, vidaiExtend, extendFinish, ho, hw, hs] <;>
        intro v hv <;> simp [List.mem_append, hv]

/-- Witness for cleanup_on_successful_splice: on the two-iteration run
with output requested and a successful splice, the run succeeds and the
manifest and the first clip are among the removed files. -/
theorem cleanup_on_successful_splice_witness :
    (runExtend c8OkEnv).err = none ∧
    listPath carBase ∈ (runExtend c8OkEnv).removals ∧
    vidPath carBase 0 ∈ (runExtend c8OkEnv).removals := by
  have h := cleanup_on_successful_splice c8OkEnv (Or.inr ⟨rfl, rfl⟩)
  exact ⟨h.1, h.2.2.1 (by decide),
    h.2.1 (vidPath carBase 0) (by decide)⟩

/-- C9 evaluation at the failing input: a successful two-iteration run of
vidai Client.Extend completes both iterations (three temp clips) yet
returns an empty URL list, because urls is never appended to in the
loop; the extend.Run rewrite accumulates exactly one generation URL per
iteration in order. -/
theorem extend_urls_empty_eval :
    (vidaiExtend c9Env).err = none ∧
    (vidaiExtend c9Env).videos.length = 3 ∧
    (vidaiExtend c9Env).urls = [] ∧
    (runExtend c9Env).urls = [demoURL 0, demoURL 1] := by
  decide

end Vidai
